import Mathlib

set_option maxRecDepth 8192

/-!
Shallow embedding of the stream-multiplexing server of pulseaudio-dlna.

Source files embedded here:
* src/pulseaudio_dlna/upnp/server.py
  (classes ProcessStream, StreamManager, StreamRequestHandler)
* src/pulseaudio_dlna/plugins/dlna/ssdp/__init__.py
  (functions _get_header_map and _get_device_id)

Modelling conventions:
* A client socket is identified by an abstract id (structure Sock).
* A spawned OS process handle is a ProcHandle: the field gen identifies one
  call of subprocess.Popen (a fresh generation number per spawn), the field
  exited records what Popen.poll() reports (false means poll() is None,
  that is, the process is still running).
* The Python dict self.sockets is modelled by its key list in insertion
  order; the claims only concern the key set.
* sys.exit(n) is modelled by the StepResult.exit constructor, which carries
  the exit code and the state of the pipeline at the moment of the exit
  call; StepResult.ok carries the updated state of a normal return.
* Thread-control calls (update_thread.pause / resume), logging and
  sock.close() have no observable effect on the modelled state and are
  omitted; the mutex serialises register / unregister / communicate, so the
  operations are modelled as atomic state transitions.
-/

/-- An abstract client socket (a key of the self.sockets dict). -/
structure Sock where
  id : Nat
deriving DecidableEq

/-- A handle of a spawned OS process: gen identifies the spawn
(one fresh number per subprocess.Popen call), exited is what poll()
reports (false means still running). -/
structure ProcHandle where
  gen : Nat
  exited : Bool
deriving DecidableEq

/-- The mutable state of one ProcessStream (server.py lines 50 to 61):
the tracked socket keys in insertion order, client_count (a Python int),
the two optional process handles, and a bookkeeping counter supplying
fresh generation numbers for subprocess.Popen calls. -/
structure StreamState where
  sockets : List Sock
  client_count : Int
  recorder_process : Option ProcHandle
  encoder_process : Option ProcHandle
  nextGen : Nat
deriving DecidableEq

/-- The state of a ProcessStream directly after __init__: no sockets,
client_count zero, both process handles None. -/
def emptyStream : StreamState :=
  { sockets := [], client_count := 0, recorder_process := none,
    encoder_process := none, nextGen := 0 }

/-- Result of an operation of the pipeline: ok is a normal return carrying
the updated state, exit models sys.exit(code) and carries the state at the
moment the whole server process terminates. -/
inductive StepResult where
  | ok : StreamState → StepResult
  | exit : Nat → StreamState → StepResult
deriving DecidableEq

/-- The state carried by a StepResult. -/
def stateOf : StepResult → StreamState
  | .ok st => st
  | .exit _ st => st

/-- ProcessStream.register (server.py lines 97 to 116): if the socket is
not yet tracked, add it and increment client_count (and resume the update
thread); otherwise log and call sys.exit(2). -/
def register (st : StreamState) (sock : Sock) : StepResult :=
  if sock ∉ st.sockets then
    .ok { st with sockets := st.sockets ++ [sock],
                  client_count := st.client_count + 1 }
  else
    .exit 2 st

/-- ProcessStream._kill_process (server.py lines 209 to 213) applied to an
optional handle: process.kill() marks the process as exited; the bare
except swallows the error raised for an already-gone process or a None
handle, and the handle itself is never cleared. -/
def killProcess : Option ProcHandle → Option ProcHandle
  | none => none
  | some p => some { p with exited := true }

/-- ProcessStream.cleanup (server.py lines 205 to 207): kill both
processes; the handles keep their values. -/
def cleanup (st : StreamState) : StreamState :=
  { st with encoder_process := killProcess st.encoder_process,
            recorder_process := killProcess st.recorder_process }

/-- ProcessStream.unregister (server.py lines 118 to 143): if the socket
is tracked, remove it, close it, decrement client_count, and if the socket
dict became empty pause the update thread and run cleanup; otherwise log
and call sys.exit(2). The removal step (del and the decrement) is named
removeSock; unregister wraps it in the tracked check and the empty-check
dispatch. -/
def removeSock (st : StreamState) (sock : Sock) : StreamState :=
  { st with sockets := st.sockets.erase sock,
            client_count := st.client_count - 1 }

/-- See removeSock: the dispatching body of ProcessStream.unregister. -/
def unregister (st : StreamState) (sock : Sock) : StepResult :=
  if sock ∈ st.sockets then
    if (removeSock st sock).sockets.length = 0 then
      .ok (cleanup (removeSock st sock))
    else
      .ok (removeSock st sock)
  else
    .exit 2 st

/-- ProcessStream.do_processes_exist (server.py lines 197 to 199). -/
def do_processes_exist (st : StreamState) : Bool :=
  st.encoder_process.isSome && st.recorder_process.isSome

/-- ProcessStream.do_processes_respond (server.py lines 201 to 203):
poll() is None for both processes. Callers invoke it only when both
handles exist; for a missing handle the model returns false. -/
def do_processes_respond (st : StreamState) : Bool :=
  (match st.recorder_process with
   | some p => !p.exited
   | none => false) &&
  (match st.encoder_process with
   | some p => !p.exited
   | none => false)

/-- ProcessStream.create_processes (server.py lines 215 to 223): spawn the
recorder and the encoder; each spawn yields a fresh running process,
modelled by consuming fresh generation numbers. -/
def create_processes (st : StreamState) : StreamState :=
  { st with recorder_process := some { gen := st.nextGen, exited := false },
            encoder_process := some { gen := st.nextGen + 1, exited := false },
            nextGen := st.nextGen + 2 }

/-- The health-check phase at the top of ProcessStream.communicate
(server.py lines 149 to 159): lazily create the process pair if it does
not exist, then, if either process stopped responding, clean up and create
a fresh pair. -/
def tickHealth (st : StreamState) : StreamState :=
  let st1 := if do_processes_exist st then st else create_processes st
  if do_processes_respond st1 then st1 else create_processes (cleanup st1)

/-- The generation of the encoder process whose stdout the tick reads
(server.py line 161). After tickHealth the encoder handle always exists;
the zero default is never reached from communicate. -/
def encGen (st : StreamState) : Nat :=
  match st.encoder_process with
  | some p => p.gen
  | none => 0

/-- Outcome of one sock.send call inside _send_data: the kernel accepts a
number of bytes (a prefix of the passed buffer), or the call raises
socket.error. -/
inductive SendStep where
  | sent : Nat → SendStep
  | err : SendStep
deriving DecidableEq

/-- The tick environment: everything the OS decides during one communicate
call. selectError makes the whole-set select.select raise; sockBad makes
the per-socket fallback select raise for that socket; writable and
readable are the select readiness results; sendSteps lists the outcomes of
the successive sock.send calls of _send_data; recvLen is the sock.recv
result (none models socket.error, some n a received byte count); chunk is
the byte chunk that the stdout of the encoder process of a given
generation yields for this tick. -/
structure TickEnv where
  selectError : Bool
  sockBad : Sock → Bool
  writable : Sock → Bool
  readable : Sock → Bool
  sendSteps : Sock → List SendStep
  recvLen : Sock → Option Nat
  chunk : Nat → List Nat

/-- ProcessStream._send_data (server.py lines 191 to 195), phrased on the
remaining buffer: while bytes are left, one sock.send call transmits a
prefix of the remaining buffer (of length at most the kernel return value)
or raises. Returns the bytes actually transmitted and whether the loop
finished without an error (running out of modelled send outcomes while
bytes remain is treated as a failure). -/
def sendLoop : List SendStep → List Nat → List Nat × Bool
  | _, [] => ([], true)
  | [], _ :: _ => ([], false)
  | SendStep.err :: _, _ :: _ => ([], false)
  | SendStep.sent n :: rest, b :: bs =>
      let buf := b :: bs
      let k := min n buf.length
      let res := sendLoop rest (buf.drop k)
      (buf.take k ++ res.1, res.2)

/-- The loop for sock in w of ProcessStream.communicate (server.py lines
173 to 177): try to send the chunk to each writable socket; on
socket.error unregister that socket with lock_override. Also returns the
log of (socket, bytes actually transmitted to it) pairs. -/
def writeLoop (env : TickEnv) (data : List Nat) :
    List Sock → StreamState → StepResult × List (Sock × List Nat)
  | [], st => (.ok st, [])
  | s :: rest, st =>
      let r := sendLoop (env.sendSteps s) data
      if r.2 then
        let res := writeLoop env data rest st
        (res.1, (s, r.1) :: res.2)
      else
        match unregister st s with
        | .ok st1 =>
            let res := writeLoop env data rest st1
            (res.1, (s, r.1) :: res.2)
        | .exit c st1 => (.exit c st1, [(s, r.1)])

/-- The loop for sock in r of ProcessStream.communicate (server.py lines
179 to 186): for each readable socket still tracked, recv; a zero-length
read or a socket.error unregisters that socket. -/
def readLoop (env : TickEnv) : List Sock → StreamState → StepResult
  | [], st => .ok st
  | s :: rest, st =>
      if s ∈ st.sockets then
        match env.recvLen s with
        | none =>
            match unregister st s with
            | .ok st1 => readLoop env rest st1
            | .exit c st1 => .exit c st1
        | some 0 =>
            match unregister st s with
            | .ok st1 => readLoop env rest st1
            | .exit c st1 => .exit c st1
        | some (_ + 1) => readLoop env rest st
      else readLoop env rest st

/-- The except socket.error fallback of the whole-set select (server.py
lines 165 to 171): probe each socket with its own select and unregister
the ones that raise. -/
def selectFallback (env : TickEnv) : List Sock → StreamState → StepResult
  | [], st => .ok st
  | s :: rest, st =>
      if env.sockBad s then
        match unregister st s with
        | .ok st1 => selectFallback env rest st1
        | .exit c st1 => .exit c st1
      else selectFallback env rest st

/-- The single chunk read from the encoder stdout for this tick
(server.py line 161): it originates from the encoder process handle that
is current after the health-check phase. -/
def tickChunk (env : TickEnv) (st : StreamState) : List Nat :=
  env.chunk (encGen (tickHealth st))

/-- The write phase of one tick: the chunk of this tick written to the
sockets selected writable, starting from the post-health-check state. -/
def tickWrite (env : TickEnv) (st : StreamState) :
    StepResult × List (Sock × List Nat) :=
  writeLoop env (tickChunk env st)
    ((tickHealth st).sockets.filter env.writable) (tickHealth st)

/-- ProcessStream.communicate (server.py lines 145 to 189): health check,
read one chunk, select over the tracked sockets (with the per-socket
fallback on a select error), write the chunk to every writable socket,
then probe the readable ones. Returns the final result and the log of
bytes transmitted per socket during the write phase. -/
def communicate (env : TickEnv) (st : StreamState) :
    StepResult × List (Sock × List Nat) :=
  let st1 := tickHealth st
  if env.selectError then (selectFallback env st1.sockets st1, [])
  else
    let wres := tickWrite env st
    match wres.1 with
    | .ok st2 => (readLoop env (st1.sockets.filter env.readable) st2, wres.2)
    | .exit c s2 => (.exit c s2, wres.2)

/-- One pipeline operation issued from a connection context; the mutex of
the pipeline serialises them. -/
inductive Op where
  | reg : Sock → Op
  | unreg : Sock → Op
deriving DecidableEq

/-- Apply one serialised operation. -/
def applyOp (st : StreamState) : Op → StepResult
  | .reg s => register st s
  | .unreg s => unregister st s

/-- Run a serialised sequence of register / unregister operations,
stopping at a sys.exit. -/
def runOps : StreamState → List Op → StepResult
  | st, [] => .ok st
  | st, op :: rest =>
      match applyOp st op with
      | .ok st1 => runOps st1 rest
      | .exit c s => .exit c s

/-- The invariant of claim C8: the socket keys are distinct (they are dict
keys) and client_count equals the number of tracked sockets. -/
def countInv (st : StreamState) : Prop :=
  st.sockets.Nodup ∧ st.client_count = st.sockets.length

/-- The freshness bookkeeping invariant of the generation counter: every
live handle was produced by an earlier spawn than the next one. -/
def genInv (st : StreamState) : Prop :=
  (∀ p, st.recorder_process = some p → p.gen < st.nextGen) ∧
  (∀ p, st.encoder_process = some p → p.gen < st.nextGen)

/-! ### Registry (class StreamManager, server.py lines 231 to 247) -/

/-- An external encoder descriptor: carries the URL suffix used for
request routing and the MIME type used for the Content-Type header (the
command line it also carries is irrelevant to the modelled behaviour). -/
structure Encoder where
  suffix : String
  mime_type : String
deriving DecidableEq

/-- An external bridge descriptor, flattened: short_name stands for
bridge.upnp_device.short_name and sink_monitor for bridge.sink.monitor. -/
structure Bridge where
  short_name : String
  sink_monitor : String
deriving DecidableEq

/-- A PulseaudioRecorder, constructed from the monitor identity of the
audio source of the bridge. -/
structure Recorder where
  monitor : String
deriving DecidableEq

/-- One entry of the stream registry: the ProcessStream constructed for a
path, with the arguments of its construction and its initial state. -/
structure StreamEntry where
  path : String
  recorder : Recorder
  encoder : Encoder
  state : StreamState
deriving DecidableEq

/-- The StreamManager: self.streams as an insertion-ordered dict from path
to ProcessStream, modelled as an association list. -/
structure StreamManager where
  streams : List (String × StreamEntry)
deriving DecidableEq

/-- First-match association list lookup (dict lookup; the code keeps the
keys unique, so first match equals the dict entry). -/
def assocFind {α β : Type} [DecidableEq α] (k : α) :
    List (α × β) → Option β
  | [] => none
  | (k2, v) :: rest => if k2 = k then some v else assocFind k rest

/-- The ProcessStream constructed by StreamManager.get_stream for a path
not yet present (server.py lines 236 to 245). -/
def newProcessStream (path : String) (bridge : Bridge) (encoder : Encoder) :
    StreamEntry :=
  { path := path, recorder := { monitor := bridge.sink_monitor },
    encoder := encoder, state := emptyStream }

/-- StreamManager.get_stream (server.py lines 235 to 247): create, store
and return a new ProcessStream if the path is absent, otherwise return
the stored one. -/
def get_stream (m : StreamManager) (path : String) (bridge : Bridge)
    (encoder : Encoder) : StreamEntry × StreamManager :=
  match assocFind path m.streams with
  | none =>
      let s := newProcessStream path bridge encoder
      (s, { streams := m.streams ++ [(path, s)] })
  | some s => (s, m)

/-! ### Request resolution (class StreamRequestHandler, server.py
lines 280 to 315) -/

/-- The response produced by StreamRequestHandler.handle_headers: a 200
with a Content-Type header value, or a 404. -/
inductive Response where
  | ok : String → Response
  | notFound : Response
deriving DecidableEq

/-- In the regexes of the source a dot matches every character except a
newline. -/
def notNL (c : Char) : Bool := c != '\n'

/-- The regex fragment lazy-group dot group-rest of r"/(.*?)\.(.*)" at a
fixed start: the first group is the text up to the first dot (it may not
cross a newline), the second group greedily takes the rest of the line. -/
def splitAtDot : List Char → Option (List Char × List Char)
  | [] => none
  | c :: rest =>
      if c = '.' then some ([], rest.takeWhile notNL)
      else if c = '\n' then none
      else (splitAtDot rest).map (fun p => (c :: p.1, p.2))

/-- re.findall(r"/(.*?)\.(.*)", path)[0] (server.py line 296): scan for
the first slash from which the rest of the pattern matches; none models
the IndexError of an empty findall result, caught at line 313. -/
def findPathMatch : List Char → Option (List Char × List Char)
  | [] => none
  | c :: rest =>
      if c = '/' then
        match splitAtDot rest with
        | some r => some r
        | none => findPathMatch rest
      else findPathMatch rest

/-- StreamRequestHandler.chop_request_path (server.py lines 292 to 315):
parse the path, pick the first encoder whose suffix matches and the first
bridge whose short name matches. When both loops found a match, the loop
variables returned at line 311 hold exactly those first matches, so the
model returns the find? results. -/
def chop_request_path (encoders : List Encoder) (bridges : List Bridge)
    (path : String) : Option (Bridge × Encoder) :=
  match findPathMatch path.toList with
  | none => none
  | some (nameCs, sufCs) =>
      let short_name := String.mk nameCs
      let sfx := String.mk sufCs
      match bridges.find? (fun br => br.short_name == short_name),
            encoders.find? (fun en => en.suffix == sfx) with
      | some b, some e => some (b, e)
      | _, _ => none

/-- StreamRequestHandler.handle_headers (server.py lines 280 to 290):
send 200 and the Content-Type of the chosen encoder when the path
resolves, otherwise a 404; also return the resolved pair. -/
def handle_headers (encoders : List Encoder) (bridges : List Bridge)
    (path : String) : Response × Option (Bridge × Encoder) :=
  match chop_request_path encoders bridges path with
  | some (b, e) => (Response.ok e.mime_type, some (b, e))
  | none => (Response.notFound, none)

/-! ### Discovery header parsing
(src/pulseaudio_dlna/plugins/dlna/ssdp/__init__.py) -/

/-- The complete newline-terminated lines of a text, without their
terminators; a trailing segment not ending in a newline is dropped. This
is the line structure the regex of _get_header_map can see: both groups
of r"(?P<name>.*?):(?P<value>.*?)\n" refuse newlines and every match ends
at a newline. -/
def completeLines : List Char → List (List Char)
  | [] => []
  | c :: rest =>
      if c = '\n' then [] :: completeLines rest
      else
        match completeLines rest with
        | [] => []
        | l :: ls => (c :: l) :: ls

/-- Split a line at its first colon into name and value; a line without a
colon yields no header pair. -/
def splitColon : List Char → Option (List Char × List Char)
  | [] => none
  | c :: rest =>
      if c = ':' then some ([], rest)
      else (splitColon rest).map (fun p => (c :: p.1, p.2))

/-- Python dict assignment d[k] = v on an insertion-ordered association
list: an existing key keeps its position and gets the new value, a new
key is appended. -/
def dictInsert {α β : Type} [DecidableEq α] (k : α) (v : β) :
    List (α × β) → List (α × β)
  | [] => [(k, v)]
  | (k2, v2) :: rest =>
      if k2 = k then (k2, v) :: rest else (k2, v2) :: dictInsert k v rest

/-- Python dict built from a pair list: per key the last value wins, the
position is that of the first occurrence. -/
def dictOfList {α β : Type} [DecidableEq α] (l : List (α × β)) :
    List (α × β) :=
  l.foldl (fun d p => dictInsert p.1 p.2 d) []

/-- Python str.strip: drop leading and trailing whitespace. -/
def pyStrip (cs : List Char) : List Char :=
  ((cs.dropWhile Char.isWhitespace).reverse.dropWhile Char.isWhitespace).reverse

/-- Python str.lower on ASCII header names. -/
def pyLower (cs : List Char) : List Char :=
  cs.map Char.toLower

/-- _get_header_map (ssdp/__init__.py lines 23 to 28): findall the
name-colon-value lines, build a dict from the raw pairs, then rebuild it
with stripped lower-cased names and stripped values. -/
def get_header_map (header : List Char) : List (List Char × List Char) :=
  dictOfList
    ((dictOfList ((completeLines header).filterMap splitColon)).map
      (fun p => (pyLower (pyStrip p.1), pyStrip p.2)))

/-- Case-insensitive character comparison of re.IGNORECASE on ASCII. -/
def ciEq (a b : Char) : Bool := a.toLower == b.toLower

/-- Case-insensitive test whether the pattern starts the text. -/
def ciStarts : List Char → List Char → Bool
  | [], _ => true
  | _ :: _, [] => false
  | p :: ps, c :: cs => ciEq p c && ciStarts ps cs

/-- The regex fragment lazy-gap double-colon of "(uuid:.*?)::(.*)": split
at the first double colon of the line (the lazy gap may not cross a
newline). -/
def findDoubleColon : List Char → Option (List Char × List Char)
  | ':' :: ':' :: rest => some ([], rest)
  | c :: rest =>
      if c = '\n' then none
      else (findDoubleColon rest).map (fun p => (c :: p.1, p.2))
  | [] => none

/-- re.search("(uuid:.*?)::(.*)", text, RegexFlag.IGNORECASE) restricted
to group(1): the leftmost case-insensitive uuid-colon occurrence followed
by a double colon on the same line; group(1) is the original-case text
from the occurrence up to the double colon. -/
def searchUuid : List Char → Option (List Char)
  | [] => none
  | c :: rest =>
      if ciStarts "uuid:".toList (c :: rest) then
        match findDoubleColon ((c :: rest).drop 5) with
        | some (gap, _) => some ((c :: rest).take 5 ++ gap)
        | none => searchUuid rest
      else searchUuid rest

/-- _get_device_id (ssdp/__init__.py lines 31 to 37): look up the usn
entry of the header map and return group(1) of the uuid search, or None. -/
def get_device_id (m : List (List Char × List Char)) : Option (List Char) :=
  match assocFind "usn".toList m with
  | some v => searchUuid v
  | none => none

/-! ### Concrete instances used by witnesses and counterexamples -/

/-- A pipeline tracking exactly the socket 1. -/
def c2State : StreamState :=
  { sockets := [⟨1⟩], client_count := 1, recorder_process := none,
    encoder_process := none, nextGen := 0 }

/-- A pipeline tracking exactly the socket 7. -/
def c3State : StreamState :=
  { sockets := [⟨7⟩], client_count := 1, recorder_process := none,
    encoder_process := none, nextGen := 0 }

/-- A tick environment with no socket activity: the select succeeds and
reports nothing writable or readable. -/
def c4Env : TickEnv :=
  { selectError := false, sockBad := fun _ => false,
    writable := fun _ => false, readable := fun _ => false,
    sendSteps := fun _ => [], recvLen := fun _ => some 1,
    chunk := fun _ => [] }

/-- The pipeline state after registering socket 1 on a fresh stream. -/
def c4St1 : StreamState :=
  { sockets := [⟨1⟩], client_count := 1, recorder_process := none,
    encoder_process := none, nextGen := 0 }

/-- The pipeline state after the first tick: the process pair was spawned
lazily and is alive. -/
def c4St2 : StreamState :=
  { sockets := [⟨1⟩], client_count := 1,
    recorder_process := some { gen := 0, exited := false },
    encoder_process := some { gen := 1, exited := false }, nextGen := 2 }

/-- The pipeline state after the last client unregistered: both processes
were killed by cleanup, yet both handles are still set. -/
def c4St3 : StreamState :=
  { sockets := [], client_count := 0,
    recorder_process := some { gen := 0, exited := true },
    encoder_process := some { gen := 1, exited := true }, nextGen := 2 }

/-- A pipeline whose encoder process has exited while a client is
attached (the crash-restart situation of claim C5). -/
def c5State : StreamState :=
  { sockets := [⟨1⟩], client_count := 1,
    recorder_process := some { gen := 0, exited := false },
    encoder_process := some { gen := 1, exited := true }, nextGen := 2 }

/-- A tick environment for the fan-out witness: sockets 1 and 2 are
writable, socket 1 accepts the whole chunk in one send call, the send to
socket 2 raises at once, socket 3 is not writable. -/
def c1Env : TickEnv :=
  { selectError := false, sockBad := fun _ => false,
    writable := fun s => s.id != 3, readable := fun _ => false,
    sendSteps := fun s => if s.id = 2 then [SendStep.err] else [SendStep.sent 8192],
    recvLen := fun _ => some 1,
    chunk := fun _ => [10, 20, 30] }

/-- A pipeline tracking the sockets 1, 2 and 3 with a live process pair. -/
def c1State : StreamState :=
  { sockets := [⟨1⟩, ⟨2⟩, ⟨3⟩], client_count := 3,
    recorder_process := some { gen := 0, exited := false },
    encoder_process := some { gen := 1, exited := false }, nextGen := 2 }

/-- A registry already holding an entry for the path of stream one. -/
def c7Manager : StreamManager :=
  { streams := [("/livingroom.mp3",
      newProcessStream "/livingroom.mp3" ⟨"livingroom", "mon0"⟩ ⟨"mp3", "audio/mpeg"⟩)] }

/-! ## Helper lemmas -/

theorem cleanup_sockets (st : StreamState) : (cleanup st).sockets = st.sockets := rfl

theorem cleanup_count (st : StreamState) :
    (cleanup st).client_count = st.client_count := rfl

theorem unregister_tracked (st : StreamState) (sock : Sock)
    (h : sock ∈ st.sockets) :
    ∃ st1, unregister st sock = .ok st1 ∧
      st1.sockets = st.sockets.erase sock ∧
      st1.client_count = st.client_count - 1 := by
  by_cases he : (removeSock st sock).sockets.length = 0
  · refine ⟨cleanup (removeSock st sock), ?_, rfl, rfl⟩
    unfold unregister
    rw [if_pos h, if_pos he]
  · refine ⟨removeSock st sock, ?_, rfl, rfl⟩
    unfold unregister
    rw [if_pos h, if_neg he]

theorem countInv_register (st : StreamState) (s : Sock) (h : countInv st) :
    countInv (stateOf (register st s)) := by
  by_cases hm : s ∈ st.sockets
  · simpa [register, hm, stateOf] using h
  · constructor
    · simp only [register, hm, not_false_iff, if_pos, stateOf]
      exact List.Nodup.append h.1 (List.nodup_singleton s)
        (by intro a ha hb; simp at hb; subst hb; exact hm ha)
    · simp only [register, hm, not_false_iff, if_pos, stateOf,
        List.length_append, List.length_singleton]
      have := h.2
      push_cast
      omega

theorem countInv_unregister (st : StreamState) (s : Sock) (h : countInv st) :
    countInv (stateOf (unregister st s)) := by
  by_cases hm : s ∈ st.sockets
  · obtain ⟨st1, hr, hsk, hc⟩ := unregister_tracked st s hm
    rw [hr]
    constructor
    · simp only [stateOf, hsk]
      exact h.1.erase s
    · have hlen : (st.sockets.erase s).length = st.sockets.length - 1 :=
        List.length_erase_of_mem hm
      have hpos : 0 < st.sockets.length := List.length_pos_of_mem hm
      have := h.2
      simp only [stateOf, hsk, hc, hlen]
      omega
  · simpa [unregister, hm, stateOf] using h

/-! ## Claim theorems -/

/-- Claim C2: on a duplicate registration the code does not report a
local, connection-scoped error; the else branch of ProcessStream.register
logs and calls sys.exit(2), terminating the whole server process with the
pipeline state untouched at the moment of the exit. This contradicts the
stated requirement that a duplicate registration must never terminate the
server (a defect the design notes themselves flag). -/
theorem c2_duplicate_register_exits (st : StreamState) (sock : Sock)
    (h : sock ∈ st.sockets) :
    register st sock = .exit 2 st := by
  simp [register, h]

theorem c2_duplicate_register_exits_witness :
    (⟨1⟩ : Sock) ∈ c2State.sockets ∧ register c2State ⟨1⟩ = .exit 2 c2State :=
  ⟨by decide, c2_duplicate_register_exits c2State ⟨1⟩ (by decide)⟩

/-- Claim C3 counterexample: unregistering a socket that is not tracked is
not a no-op that keeps the server running; on the fresh pipeline the call
takes the else branch of ProcessStream.unregister and terminates the
server process via sys.exit(2). -/
theorem c3_unregister_untracked_counterexample :
    unregister emptyStream ⟨0⟩ = .exit 2 emptyStream := by decide

/-- Claim C3 amended: for every pipeline and every socket not currently
tracked by it, unregister leaves the socket set, client_count and the
process handles unchanged (the state carried at the exit point equals the
input state) but terminates the server process via sys.exit(2) instead of
returning. -/
theorem c3_unregister_untracked_exits (st : StreamState) (sock : Sock)
    (h : sock ∉ st.sockets) :
    unregister st sock = .exit 2 st := by
  simp [unregister, h]

theorem c3_unregister_untracked_exits_witness :
    (⟨9⟩ : Sock) ∉ c3State.sockets ∧ unregister c3State ⟨9⟩ = .exit 2 c3State :=
  ⟨by decide, c3_unregister_untracked_exits c3State ⟨9⟩ (by decide)⟩

/-- Claim C8: register and unregister preserve the invariant that
client_count equals the size of the tracked socket set (with the dict
keys distinct), hence every serialised sequence of register and
unregister operations keeps the two consistent, up to and including the
state at a sys.exit. -/
theorem c8_count_matches_socket_set (ops : List Op) (st : StreamState)
    (h : countInv st) :
    countInv (stateOf (runOps st ops)) := by
  induction ops generalizing st with
  | nil => simpa [runOps, stateOf] using h
  | cons op rest ih =>
      have hstep : countInv (stateOf (applyOp st op)) := by
        cases op with
        | reg s => exact countInv_register st s h
        | unreg s => exact countInv_unregister st s h
      cases hap : applyOp st op with
      | ok st1 =>
          rw [hap] at hstep
          simpa [runOps, hap] using ih st1 hstep
      | exit c s1 =>
          rw [hap] at hstep
          simpa [runOps, hap, stateOf] using hstep

theorem c8_count_matches_socket_set_witness :
    countInv emptyStream ∧
    countInv (stateOf (runOps emptyStream
      [Op.reg ⟨1⟩, Op.reg ⟨2⟩, Op.unreg ⟨1⟩, Op.reg ⟨3⟩, Op.unreg ⟨2⟩])) := by
  have h0 : countInv emptyStream := ⟨List.nodup_nil, by simp [emptyStream]⟩
  exact ⟨h0, c8_count_matches_socket_set _ emptyStream h0⟩

/-- Claim C4 counterexample: a run register, one tick, unregister reaches
a state with client_count zero in which both process handles are still
set (cleanup killed the processes but never clears the handles), refuting
the claimed equivalence and in particular the claim that both handles are
null after the last client unregisters. -/
theorem c4_handles_survive_counterexample :
    register emptyStream ⟨1⟩ = .ok c4St1 ∧
    (communicate c4Env c4St1).1 = .ok c4St2 ∧
    unregister c4St2 ⟨1⟩ = .ok c4St3 ∧
    c4St3.client_count = 0 ∧
    c4St3.recorder_process.isSome = true ∧
    c4St3.encoder_process.isSome = true := by decide

/-- Claim C4 amended: when the last client unregisters (the socket set
becomes empty), client_count drops to the previous value minus one and
cleanup kills both processes, but the process handles are left in place:
each handle that was set stays set, now pointing at a killed process.
Handle nullity holds only before the first spawn, not after the last
unregister. -/
theorem c4_last_unregister_kills_but_keeps_handles
    (st : StreamState) (sock : Sock) (st2 : StreamState)
    (hm : sock ∈ st.sockets)
    (hlast : st.sockets.erase sock = [])
    (hr : unregister st sock = .ok st2) :
    st2.client_count = st.client_count - 1 ∧
    (∀ p, st.recorder_process = some p →
        st2.recorder_process = some { gen := p.gen, exited := true }) ∧
    (∀ p, st.encoder_process = some p →
        st2.encoder_process = some { gen := p.gen, exited := true }) ∧
    st2.recorder_process.isSome = st.recorder_process.isSome ∧
    st2.encoder_process.isSome = st.encoder_process.isSome := by
  unfold unregister at hr
  rw [if_pos hm] at hr
  have hz : (removeSock st sock).sockets.length = 0 := by
    simp [removeSock, hlast]
  rw [if_pos hz] at hr
  injection hr with hr
  subst hr
  refine ⟨rfl, ?_, ?_, ?_, ?_⟩
  · intro p hp; simp [cleanup, removeSock, killProcess, hp]
  · intro p hp; simp [cleanup, removeSock, killProcess, hp]
  · cases hrec : st.recorder_process <;>
      simp [cleanup, removeSock, killProcess, hrec]
  · cases henc : st.encoder_process <;>
      simp [cleanup, removeSock, killProcess, henc]

theorem c4_last_unregister_kills_but_keeps_handles_witness :
    (⟨1⟩ : Sock) ∈ c4St2.sockets ∧ c4St2.sockets.erase ⟨1⟩ = [] ∧
    unregister c4St2 ⟨1⟩ = .ok c4St3 ∧
    (c4St3.client_count = c4St2.client_count - 1 ∧
     (∀ p, c4St2.recorder_process = some p →
         c4St3.recorder_process = some { gen := p.gen, exited := true }) ∧
     (∀ p, c4St2.encoder_process = some p →
         c4St3.encoder_process = some { gen := p.gen, exited := true }) ∧
     c4St3.recorder_process.isSome = c4St2.recorder_process.isSome ∧
     c4St3.encoder_process.isSome = c4St2.encoder_process.isSome) :=
  ⟨by decide, by decide, by decide,
   c4_last_unregister_kills_but_keeps_handles c4St2 ⟨1⟩ c4St3
     (by decide) (by decide) (by decide)⟩

theorem assocFind_append_self {α β : Type} [DecidableEq α] (k : α) (v : β)
    (l : List (α × β)) (h : assocFind k l = none) :
    assocFind k (l ++ [(k, v)]) = some v := by
  induction l with
  | nil => simp [assocFind]
  | cons p rest ih =>
      obtain ⟨k2, v2⟩ := p
      by_cases hk : k2 = k
      · simp [assocFind, hk] at h
      · simp only [List.cons_append, assocFind, if_neg hk] at h ⊢
        exact ih h

theorem assocFind_none_not_mem {α β : Type} [DecidableEq α] (k : α)
    (l : List (α × β)) (h : assocFind k l = none) :
    k ∉ l.map Prod.fst := by
  induction l with
  | nil => simp
  | cons p rest ih =>
      obtain ⟨k2, v2⟩ := p
      by_cases hk : k2 = k
      · simp [assocFind, hk] at h
      · simp only [assocFind, if_neg hk] at h
        simp only [List.map_cons, List.mem_cons]
        rintro (rfl | hm)
        · exact hk rfl
        · exact ih h hm

theorem completeLines_no_newline (cs : List Char) (h : '\n' ∉ cs) :
    completeLines cs = [] := by
  induction cs with
  | nil => rfl
  | cons c rest ih =>
      have hc : ¬ c = '\n' := fun e => h (by simp [e])
      have hr : completeLines rest = [] :=
        ih (fun hm => h (List.mem_cons_of_mem c hm))
      simp [completeLines, hc, hr]

theorem completeLines_append (cs tail : List Char) (h : '\n' ∉ tail) :
    completeLines (cs ++ tail) = completeLines cs := by
  induction cs with
  | nil => simpa using completeLines_no_newline tail h
  | cons c rest ih =>
      by_cases hc : c = '\n'
      · subst hc; simp [completeLines, ih]
      · simp [completeLines, hc, ih]

/-- Claim C7: get_stream returns the stored ProcessStream when the path is
present (leaving the registry unchanged), otherwise constructs a new one,
stores it under the path and returns it; a second call with the same path
(whatever bridge and encoder it passes) returns the same ProcessStream,
and distinctness of the registry keys is preserved, so the registry holds
at most one ProcessStream per path. -/
theorem c7_registry_one_stream_per_path (m : StreamManager)
    (path : String) (bridge : Bridge) (encoder : Encoder) :
    (∀ s, assocFind path m.streams = some s →
        get_stream m path bridge encoder = (s, m)) ∧
    (assocFind path m.streams = none →
        get_stream m path bridge encoder
          = (newProcessStream path bridge encoder,
             { streams :=
                m.streams ++ [(path, newProcessStream path bridge encoder)] })) ∧
    (∀ bridge2 encoder2,
        (get_stream (get_stream m path bridge encoder).2 path
            bridge2 encoder2).1
          = (get_stream m path bridge encoder).1) ∧
    ((m.streams.map Prod.fst).Nodup →
        ((get_stream m path bridge encoder).2.streams.map Prod.fst).Nodup) := by
  cases hf : assocFind path m.streams with
  | some s =>
      refine ⟨?_, ?_, ?_, ?_⟩
      · intro s0 h0
        injection h0 with h0
        subst h0
        simp [get_stream, hf]
      · intro h0
        exact absurd h0 (by simp)
      · intro b2 e2
        simp [get_stream, hf]
      · intro h
        simpa [get_stream, hf] using h
  | none =>
      have hmain : get_stream m path bridge encoder
          = (newProcessStream path bridge encoder,
             { streams :=
                m.streams ++ [(path, newProcessStream path bridge encoder)] }) := by
        simp [get_stream, hf]
      refine ⟨?_, fun _ => hmain, ?_, ?_⟩
      · intro s0 h0
        exact absurd h0 (by simp)
      · intro b2 e2
        rw [hmain]
        have h2 : assocFind path
            (m.streams ++ [(path, newProcessStream path bridge encoder)])
            = some (newProcessStream path bridge encoder) :=
          assocFind_append_self path _ m.streams hf
        simp [get_stream, h2]
      · intro h
        rw [hmain]
        simp only [List.map_append, List.map_cons, List.map_nil]
        refine List.Nodup.append h (List.nodup_singleton _) ?_
        intro a ha hb
        simp only [List.mem_singleton] at hb
        exact assocFind_none_not_mem path m.streams hf (hb ▸ ha)

theorem c7_registry_one_stream_per_path_witness :
    assocFind "/livingroom.mp3" c7Manager.streams
      = some (newProcessStream "/livingroom.mp3" ⟨"livingroom", "mon0"⟩
          ⟨"mp3", "audio/mpeg"⟩) ∧
    get_stream c7Manager "/livingroom.mp3" ⟨"other", "mon1"⟩ ⟨"ogg", "audio/ogg"⟩
      = (newProcessStream "/livingroom.mp3" ⟨"livingroom", "mon0"⟩
          ⟨"mp3", "audio/mpeg"⟩, c7Manager) :=
  ⟨by decide,
   (c7_registry_one_stream_per_path c7Manager "/livingroom.mp3"
      ⟨"other", "mon1"⟩ ⟨"ogg", "audio/ogg"⟩).1 _ (by decide)⟩

/-- Claim C9: the example USN header line parses to a map whose usn entry
(lower-cased trimmed key) holds the full trimmed value, device-id
extraction on that map yields uuid:1234-5678, and extraction reports
absence both when the map has no usn entry and when the usn value does
not match the case-insensitive uuid-double-colon pattern. -/
theorem c9_usn_parse_and_device_id :
    assocFind "usn".toList
      (get_header_map
        "USN: uuid:1234-5678::urn:schemas-upnp-org:device:MediaRenderer:1\n".toList)
      = some "uuid:1234-5678::urn:schemas-upnp-org:device:MediaRenderer:1".toList ∧
    get_device_id
      (get_header_map
        "USN: uuid:1234-5678::urn:schemas-upnp-org:device:MediaRenderer:1\n".toList)
      = some "uuid:1234-5678".toList ∧
    (∀ m, assocFind "usn".toList m = none → get_device_id m = none) ∧
    (∀ m v, assocFind "usn".toList m = some v → searchUuid v = none →
        get_device_id m = none) := by
  refine ⟨by decide, by decide, ?_, ?_⟩
  · intro m h
    unfold get_device_id
    rw [h]
  · intro m v h hs
    unfold get_device_id
    rw [h]
    exact hs

theorem c9_usn_parse_and_device_id_witness :
    assocFind "usn".toList [("nt".toList, "upnp-rootdevice".toList)] = none ∧
    get_device_id [("nt".toList, "upnp-rootdevice".toList)] = none :=
  ⟨by decide, c9_usn_parse_and_device_id.2.2.1 _ (by decide)⟩

/-- Claim C10: the header-map regex only matches lines terminated by a
newline, so a trailing name-colon-value fragment without a final newline
contributes no entry, and a single line with no newline at all parses to
the empty mapping. -/
theorem c10_unterminated_line_dropped :
    (∀ cs tail : List Char, '\n' ∉ tail →
        get_header_map (cs ++ tail) = get_header_map cs) ∧
    (∀ line : List Char, '\n' ∉ line → get_header_map line = []) := by
  constructor
  · intro cs tail h
    unfold get_header_map
    rw [completeLines_append cs tail h]
  · intro line h
    unfold get_header_map
    rw [completeLines_no_newline line h]
    rfl

theorem c10_unterminated_line_dropped_witness :
    ('\n' ∉ "usn: uuid:1234-5678::x".toList) ∧
    get_header_map "usn: uuid:1234-5678::x".toList = [] :=
  ⟨by decide, c10_unterminated_line_dropped.2 _ (by decide)⟩

/-- Claim C5: when the process pair exists at the start of a tick but at
least one process has exited (poll reports a dead process), the
health-check phase of that same tick first tears both processes down and
then spawns a fresh pair, before the read at line 161: the post-health
state is exactly create_processes of cleanup, both new handles are alive
with generations never used by the dead pair, and the chunk read by the
tick is drawn from the fresh encoder generation, never from the dead
one. -/
theorem c5_crash_restart (st : StreamState)
    (hex : do_processes_exist st = true)
    (hdead : do_processes_respond st = false)
    (hg : genInv st) :
    tickHealth st = create_processes (cleanup st) ∧
    (tickHealth st).recorder_process
      = some { gen := st.nextGen, exited := false } ∧
    (tickHealth st).encoder_process
      = some { gen := st.nextGen + 1, exited := false } ∧
    encGen (tickHealth st) = st.nextGen + 1 ∧
    (∀ p, st.recorder_process = some p →
        p.gen ≠ st.nextGen ∧ p.gen ≠ st.nextGen + 1) ∧
    (∀ p, st.encoder_process = some p →
        p.gen ≠ st.nextGen ∧ p.gen ≠ st.nextGen + 1) ∧
    (∀ env : TickEnv, tickChunk env st = env.chunk (st.nextGen + 1)) := by
  have h1 : tickHealth st = create_processes (cleanup st) := by
    simp [tickHealth, hex, hdead]
  refine ⟨h1, ?_, ?_, ?_, ?_, ?_, ?_⟩
  · rw [h1]; rfl
  · rw [h1]; rfl
  · rw [h1]; rfl
  · intro p hp
    have := hg.1 p hp
    omega
  · intro p hp
    have := hg.2 p hp
    omega
  · intro env
    unfold tickChunk
    rw [h1]
    rfl

theorem c5_crash_restart_witness :
    do_processes_exist c5State = true ∧
    do_processes_respond c5State = false ∧
    genInv c5State ∧
    tickHealth c5State = create_processes (cleanup c5State) ∧
    encGen (tickHealth c5State) = c5State.nextGen + 1 := by
  have hg : genInv c5State := by
    constructor
    · intro p hp
      injection hp with h
      rw [← h]
      decide
    · intro p hp
      injection hp with h
      rw [← h]
      decide
  have h := c5_crash_restart c5State (by decide) (by decide) hg
  exact ⟨by decide, by decide, hg, h.1, h.2.2.2.1⟩

theorem takeWhile_notNL_of_not_mem (l : List Char) (h : '\n' ∉ l) :
    l.takeWhile notNL = l := by
  induction l with
  | nil => rfl
  | cons c rest ih =>
      have hc : notNL c = true := by
        simp only [notNL, bne_iff_ne, ne_eq]
        exact fun e => h (by simp [e])
      have ih2 : rest.takeWhile notNL = rest :=
        ih (fun hm => h (List.mem_cons_of_mem c hm))
      simp [List.takeWhile_cons, hc, ih2]

theorem splitAtDot_append (name suf : List Char)
    (hdot : '.' ∉ name) (hnl : '\n' ∉ name) :
    splitAtDot (name ++ '.' :: suf) = some (name, suf.takeWhile notNL) := by
  induction name with
  | nil => simp [splitAtDot]
  | cons c rest ih =>
      have hc1 : ¬ c = '.' := fun e => hdot (by simp [e])
      have hc2 : ¬ c = '\n' := fun e => hnl (by simp [e])
      have ih2 := ih (fun hm => hdot (List.mem_cons_of_mem c hm))
        (fun hm => hnl (List.mem_cons_of_mem c hm))
      simp [splitAtDot, hc1, hc2, ih2]

/-- Claim C6: for a request path of the shape slash name dot suffix (the
name free of dots and newlines, the suffix free of newlines), when the
first matching bridge and the first matching encoder both exist the
handler answers 200 with Content-Type equal to the mime type of that
first matching encoder (resolution in list order, first match wins); when
either the name or the suffix fails to resolve the handler answers 404.
The identical handle_headers routine serves both GET and HEAD. -/
theorem c6_path_resolution (encoders : List Encoder) (bridges : List Bridge)
    (path : String) (nameCs sufCs : List Char)
    (hp : path.toList = '/' :: (nameCs ++ '.' :: sufCs))
    (hdot : '.' ∉ nameCs) (hn1 : '\n' ∉ nameCs) (hn2 : '\n' ∉ sufCs) :
    (∀ b e,
        bridges.find? (fun br => br.short_name == String.mk nameCs) = some b →
        encoders.find? (fun en => en.suffix == String.mk sufCs) = some e →
        handle_headers encoders bridges path
          = (Response.ok e.mime_type, some (b, e))) ∧
    (bridges.find? (fun br => br.short_name == String.mk nameCs) = none →
        handle_headers encoders bridges path = (Response.notFound, none)) ∧
    (encoders.find? (fun en => en.suffix == String.mk sufCs) = none →
        handle_headers encoders bridges path = (Response.notFound, none)) := by
  have hsplit : splitAtDot (nameCs ++ '.' :: sufCs) = some (nameCs, sufCs) := by
    rw [splitAtDot_append nameCs sufCs hdot hn1,
        takeWhile_notNL_of_not_mem sufCs hn2]
  have hfind : findPathMatch path.data = some (nameCs, sufCs) := by
    have hp2 : path.data = '/' :: (nameCs ++ '.' :: sufCs) := hp
    rw [hp2]
    simp [findPathMatch, hsplit]
  refine ⟨?_, ?_, ?_⟩
  · intro b e hb he
    simp [handle_headers, chop_request_path, hfind, hb, he]
  · intro hb
    simp [handle_headers, chop_request_path, hfind, hb]
  · intro he
    cases hb : bridges.find? (fun br => br.short_name == String.mk nameCs) with
    | none => simp [handle_headers, chop_request_path, hfind, hb]
    | some b => simp [handle_headers, chop_request_path, hfind, hb, he]

theorem c6_path_resolution_witness :
    ("/livingroom.mp3").toList
      = '/' :: ("livingroom".toList ++ '.' :: "mp3".toList) ∧
    handle_headers [⟨"mp3", "audio/mpeg"⟩] [⟨"livingroom", "mon0"⟩]
        "/livingroom.mp3"
      = (Response.ok "audio/mpeg",
         some (⟨"livingroom", "mon0"⟩, ⟨"mp3", "audio/mpeg"⟩)) := by
  refine ⟨by decide, ?_⟩
  exact (c6_path_resolution [⟨"mp3", "audio/mpeg"⟩] [⟨"livingroom", "mon0"⟩]
      "/livingroom.mp3" "livingroom".toList "mp3".toList (by decide)
      (by decide) (by decide) (by decide)).1
    ⟨"livingroom", "mon0"⟩ ⟨"mp3", "audio/mpeg"⟩ (by decide) (by decide)

theorem sendLoop_ok (steps : List SendStep) (data : List Nat)
    (h : (sendLoop steps data).2 = true) :
    (sendLoop steps data).1 = data := by
  induction steps generalizing data with
  | nil =>
      cases data with
      | nil => rfl
      | cons b bs => simp [sendLoop] at h
  | cons s rest ih =>
      cases data with
      | nil => simp [sendLoop]
      | cons b bs =>
          cases s with
          | err => simp [sendLoop] at h
          | sent n =>
              simp only [sendLoop] at h ⊢
              rw [ih _ h]
              exact List.take_append_drop _ _

theorem tickHealth_sockets (st : StreamState) :
    (tickHealth st).sockets = st.sockets := by
  by_cases hA : do_processes_exist st = true
  · by_cases hB : do_processes_respond st = true
    · have h : tickHealth st = st := by
        unfold tickHealth
        simp [hA, hB]
      rw [h]
    · have h : tickHealth st = create_processes (cleanup st) := by
        unfold tickHealth
        simp [hA, hB]
      rw [h]
      rfl
  · by_cases hB : do_processes_respond (create_processes st) = true
    · have h : tickHealth st = create_processes st := by
        unfold tickHealth
        simp [hA, hB]
      rw [h]
      rfl
    · have h : tickHealth st
          = create_processes (cleanup (create_processes st)) := by
        unfold tickHealth
        simp [hA, hB]
      rw [h]
      rfl

theorem writeLoop_spec (env : TickEnv) (data : List Nat) :
    ∀ (ws : List Sock) (st : StreamState),
      ws.Nodup → (∀ s, s ∈ ws → s ∈ st.sockets) → st.sockets.Nodup →
      ∃ st2,
        (writeLoop env data ws st).1 = .ok st2 ∧
        st2.sockets.Nodup ∧
        (∀ s, s ∈ st2.sockets → s ∈ st.sockets) ∧
        (∀ s, s ∈ ws → (sendLoop (env.sendSteps s) data).2 = true →
            (s, data) ∈ (writeLoop env data ws st).2) ∧
        (∀ s, s ∈ ws → (sendLoop (env.sendSteps s) data).2 = false →
            s ∉ st2.sockets) ∧
        (∀ s, s ∈ st.sockets →
            (s ∈ ws → (sendLoop (env.sendSteps s) data).2 = true) →
            s ∈ st2.sockets) := by
  intro ws
  induction ws with
  | nil =>
      intro st hnd hsub hstnd
      refine ⟨st, rfl, hstnd, fun s hs => hs, ?_, ?_, ?_⟩
      · intro s hs
        exact absurd hs (List.not_mem_nil s)
      · intro s hs
        exact absurd hs (List.not_mem_nil s)
      · intro s hs _
        exact hs
  | cons s0 rest ih =>
      intro st hnd hsub hstnd
      have hs0 : s0 ∈ st.sockets := hsub s0 (List.mem_cons_self s0 rest)
      have hrestnd : rest.Nodup := hnd.of_cons
      have hs0nr : s0 ∉ rest := (List.nodup_cons.mp hnd).1
      by_cases hok : (sendLoop (env.sendSteps s0) data).2 = true
      · obtain ⟨st2, h1, h2, h3, h4, h5, h6⟩ :=
          ih st hrestnd (fun x hx => hsub x (List.mem_cons_of_mem s0 hx)) hstnd
        refine ⟨st2, ?_, h2, h3, ?_, ?_, ?_⟩
        · simpa [writeLoop, hok] using h1
        · intro s hs hsOk
          rcases List.mem_cons.mp hs with hss | hs2
          · subst hss
            simp only [writeLoop, hok, if_true]
            exact List.mem_cons.mpr (Or.inl (by rw [sendLoop_ok _ _ hok]))
          · have := h4 s hs2 hsOk
            simp only [writeLoop, hok, if_true]
            exact List.mem_cons_of_mem _ this
        · intro s hs hsF
          rcases List.mem_cons.mp hs with hss | hs2
          · subst hss
            rw [hok] at hsF
            exact absurd hsF (by simp)
          · exact h5 s hs2 hsF
        · intro s hsst himp
          exact h6 s hsst (fun hsr => himp (List.mem_cons_of_mem s0 hsr))
      · have hokf : (sendLoop (env.sendSteps s0) data).2 = false :=
          Bool.not_eq_true _ ▸ eq_false_of_ne_true hok
        obtain ⟨st1, hu, husk, huc⟩ := unregister_tracked st s0 hs0
        have hsub1 : ∀ x, x ∈ rest → x ∈ st1.sockets := by
          intro x hx
          rw [husk]
          have hxne : x ≠ s0 := fun e => hs0nr (e ▸ hx)
          exact (List.mem_erase_of_ne hxne).mpr
            (hsub x (List.mem_cons_of_mem s0 hx))
        have hst1nd : st1.sockets.Nodup := by
          rw [husk]
          exact hstnd.erase s0
        obtain ⟨st2, h1, h2, h3, h4, h5, h6⟩ := ih st1 hrestnd hsub1 hst1nd
        refine ⟨st2, ?_, h2, ?_, ?_, ?_, ?_⟩
        · simpa [writeLoop, hokf, hu] using h1
        · intro x hx
          have hx1 := h3 x hx
          rw [husk] at hx1
          exact List.mem_of_mem_erase hx1
        · intro s hs hsOk
          rcases List.mem_cons.mp hs with hss | hs2
          · subst hss
            rw [hokf] at hsOk
            exact absurd hsOk (by simp)
          · have := h4 s hs2 hsOk
            simp only [writeLoop, hokf, hu]
            simp only [Bool.false_eq_true, if_false]
            exact List.mem_cons_of_mem _ this
        · intro s hs hsF
          rcases List.mem_cons.mp hs with hss | hs2
          · subst hss
            intro hmem
            have h3m := h3 s hmem
            rw [husk] at h3m
            exact hstnd.not_mem_erase h3m
          · exact h5 s hs2 hsF
        · intro s hsst himp
          by_cases hse : s = s0
          · subst hse
            have hx := himp (List.mem_cons_self s rest)
            rw [hokf] at hx
            exact absurd hx (by simp)
          · have hsst1 : s ∈ st1.sockets := by
              rw [husk]
              exact (List.mem_erase_of_ne hse).mpr hsst
            exact h6 s hsst1 (fun hsr => himp (List.mem_cons_of_mem s0 hsr))

theorem communicate_snd (env : TickEnv) (st : StreamState)
    (h : env.selectError = false) :
    (communicate env st).2 = (tickWrite env st).2 := by
  simp only [communicate, h, Bool.false_eq_true, if_false]
  cases hw : (tickWrite env st).1 <;> simp [hw]

/-- Claim C1: during one tick taken with a successful whole-set select,
every tracked socket selected writable whose send calls all succeed is
sent the single chunk read from the encoder for that tick, in full and
byte-identical across all such subscribers (the log records the pair of
the socket and exactly that chunk); a writable socket whose send raises
is unregistered by the write phase, while every other tracked socket
(non-writable, or writable with successful sends) is still tracked after
the write phase. -/
theorem c1_tick_fanout (env : TickEnv) (st : StreamState)
    (hnd : st.sockets.Nodup) (hsel : env.selectError = false) :
    ∃ st2,
      (tickWrite env st).1 = .ok st2 ∧
      (communicate env st).2 = (tickWrite env st).2 ∧
      (∀ s, s ∈ st.sockets → env.writable s = true →
          (sendLoop (env.sendSteps s) (tickChunk env st)).2 = true →
          (s, tickChunk env st) ∈ (tickWrite env st).2 ∧ s ∈ st2.sockets) ∧
      (∀ s, s ∈ st.sockets → env.writable s = true →
          (sendLoop (env.sendSteps s) (tickChunk env st)).2 = false →
          s ∉ st2.sockets) ∧
      (∀ s, s ∈ st.sockets →
          (env.writable s = true →
            (sendLoop (env.sendSteps s) (tickChunk env st)).2 = true) →
          s ∈ st2.sockets) := by
  have hsk : (tickHealth st).sockets = st.sockets := tickHealth_sockets st
  have hst : ∀ s, s ∈ st.sockets → s ∈ (tickHealth st).sockets := by
    intro s hs
    rw [hsk]
    exact hs
  have hnd1 : (tickHealth st).sockets.Nodup := by
    rw [hsk]
    exact hnd
  obtain ⟨st2, h1, h2, h3, h4, h5, h6⟩ :=
    writeLoop_spec env (tickChunk env st)
      ((tickHealth st).sockets.filter env.writable) (tickHealth st)
      (hnd1.filter _) (fun x hx => List.mem_of_mem_filter hx) hnd1
  refine ⟨st2, h1, communicate_snd env st hsel, ?_, ?_, ?_⟩
  · intro s hs hw2 hok
    have hmemf : s ∈ (tickHealth st).sockets.filter env.writable :=
      List.mem_filter.mpr ⟨hst s hs, hw2⟩
    exact ⟨h4 s hmemf hok, h6 s (hst s hs) (fun _ => hok)⟩
  · intro s hs hw2 hfail
    exact h5 s (List.mem_filter.mpr ⟨hst s hs, hw2⟩) hfail
  · intro s hs himp
    exact h6 s (hst s hs) (fun hsf => himp (List.of_mem_filter hsf))

theorem c1_tick_fanout_witness :
    c1State.sockets.Nodup ∧ c1Env.selectError = false ∧
    ∃ st2,
      (tickWrite c1Env c1State).1 = .ok st2 ∧
      (communicate c1Env c1State).2 = (tickWrite c1Env c1State).2 ∧
      (∀ s, s ∈ c1State.sockets → c1Env.writable s = true →
          (sendLoop (c1Env.sendSteps s) (tickChunk c1Env c1State)).2 = true →
          (s, tickChunk c1Env c1State) ∈ (tickWrite c1Env c1State).2 ∧
            s ∈ st2.sockets) ∧
      (∀ s, s ∈ c1State.sockets → c1Env.writable s = true →
          (sendLoop (c1Env.sendSteps s) (tickChunk c1Env c1State)).2 = false →
          s ∉ st2.sockets) ∧
      (∀ s, s ∈ c1State.sockets →
          (c1Env.writable s = true →
            (sendLoop (c1Env.sendSteps s) (tickChunk c1Env c1State)).2 = true) →
          s ∈ st2.sockets) :=
  ⟨by decide, rfl, c1_tick_fanout c1Env c1State (by decide) rfl⟩
